import Mathlib

set_option maxRecDepth 100000

/-!
# Verification of the galileo responder pipeline

Shallow embedding of `src/responder.rs` and `src/opt/serve.rs` from the
`galileo` Discord faucet, together with proofs of the specified properties
of address extraction, dispensing, summary composition and configuration
validation.

External collaborators (the `penumbra_crypto` address codec, the serenity
chat client, the wallet worker and the tokio channels) are modelled by
their interfaces: address parsing is an abstract parameter, the wallet
worker is an oracle giving the outcome of each send, one-shot reply
delivery is a boolean flag on each queued request.
-/

/-- Penumbra address (external type `penumbra_crypto::Address`): modelled by
its string rendering, the only capability the responder uses of it
(`Display` when composing the summary). -/
abbrev Address := String

/-- Discord guild identifier (external `serenity` type). -/
abbrev GuildId := Nat

/-- Discord role identifier (external `serenity` type). -/
abbrev RoleId := Nat

/-- A guild role (external `serenity` type): only the administrator
permission bit is consulted by the responder. -/
structure Role where
  administrator : Bool
  deriving Repr, DecidableEq

/-- A Discord message (external `serenity` type): the fields the responder
reads are its text content, its optional guild context and the author name
(the latter only for logging). An `id` stands for the message identity. -/
structure Message where
  id : Nat
  content : String
  guild_id : Option GuildId
  author_name : String
  deriving Repr, DecidableEq

/-- The serenity role mention text, `<@&id>`, of `RoleId::mention`. -/
def roleMention (id : RoleId) : String := "<@&" ++ toString id ++ ">"

/-! ## Address extraction (`Request::try_from_message`, responder.rs 51-87)

The scan embeds the regex
`penumbrav\dt1[qpzry9x8gf2tvdw0s3jn54khce6mua7l]{126}` under
`find_iter` semantics: leftmost, non-overlapping matches reported left to
right, resuming after the end of each match. Every match has the fixed
length 9 + 1 + 2 + 126 = 138. -/

/-- The bech32 body alphabet of the address regex. -/
def bech32Charset : List Char := "qpzry9x8gf2tvdw0s3jn54khce6mua7l".data

/-- Membership in the bech32 body alphabet. -/
def isBech32Char (c : Char) : Bool := bech32Charset.contains c

/-- The fixed length of every regex match. -/
def addressMatchLen : Nat := 138

/-- Whether a character list is exactly one match of the address regex:
the literal head `penumbrav`, one decimal digit, the literal `t1`, then
126 characters of the bech32 alphabet. -/
def isAddressShaped (l : List Char) : Bool :=
  l.length == addressMatchLen &&
  l.take 9 == "penumbrav".data &&
  ((l.drop 9).take 1).all Char.isDigit &&
  (l.drop 10).take 2 == "t1".data &&
  (l.drop 12).all isBech32Char

/-- One step of `Regex::find_iter` over the message text: positions are
scanned left to right; at each position the fixed-length pattern is tried;
a match is reported with its start offset and the scan resumes after its
end. The `fuel` argument only bounds the recursion structurally: every
step strictly shortens the character list, so any fuel at least the list
length runs the scan to completion. -/
def findAddressesGo : Nat → List Char → Nat → List (Nat × String)
  | 0, _, _ => []
  | _ + 1, [], _ => []
  | fuel + 1, c :: rest, pos =>
    let cand := (c :: rest).take addressMatchLen
    if isAddressShaped cand then
      (pos, String.mk cand) :: findAddressesGo fuel ((c :: rest).drop addressMatchLen)
        (pos + addressMatchLen)
    else
      findAddressesGo fuel rest (pos + 1)

/-- Scan of a character list for the matches `Regex::find_iter` reports. -/
def findAddresses (l : List Char) (pos : Nat) : List (Nat × String) :=
  findAddressesGo l.length l pos

/-- responder.rs 90-94: a matched substring, either fully parsed as an
address or kept verbatim when deeper parsing fails. -/
inductive AddressOrAlmost where
  | Address (addr : Address)
  | Almost (s : String)
  deriving Repr, DecidableEq

/-- responder.rs 59-71: classify each regex match by the external address
codec `m.as_str().parse()`, modelled by the parameter `addrParse`; parse
failure keeps the matched text as `Almost`. -/
def extractTokens (addrParse : String → Option Address) (content : String) :
    List AddressOrAlmost :=
  (findAddresses content.data 0).map (fun m =>
    match addrParse m.2 with
    | some addr => AddressOrAlmost.Address addr
    | none => AddressOrAlmost.Almost m.2)

/-- responder.rs 37-44: a queued request. The one-shot reply channel is
modelled at the `run` level by the `receiverAlive` flag of `QRequest`. -/
structure Request where
  message : Message
  addresses : List AddressOrAlmost
  deriving Repr, DecidableEq

/-- responder.rs 51-87: `Request::try_from_message`; yields the original
message back when the scan finds no token. -/
def tryFromMessage (addrParse : String → Option Address) (message : Message) :
    Except Message Request :=
  let addresses := extractTokens addrParse message.content
  if addresses.isEmpty then
    Except.error message
  else
    Except.ok { message := message, addresses := addresses }

/-! ## The responder (`Responder`, responder.rs 14-195)

The wallet worker (`crate::wallet`, an external collaborator of this file)
is modelled by an oracle giving the outcome of the n-th send issued during
one `dispense` call: the mpsc send of the request can fail (receiver
dropped), the await of the one-shot result can fail (sender dropped), or
the worker reports success or a business error. -/

/-- Outcome of one `wallet::Request::send` round trip, indexed by how many
sends were issued before it. -/
inductive SendOutcome where
  | sendFailed
  | recvFailed
  | confirmed
  | rejected (e : String)
  deriving Repr, DecidableEq

/-- The structural failures that `dispense` propagates with `?`. -/
inductive Fatal where
  | requestChannelClosed
  | resultChannelClosed
  deriving Repr, DecidableEq

/-- A value to dispense (external `penumbra_crypto::Value`): an amount and
an asset identifier. -/
structure Value where
  amount : Nat
  asset_id : Nat
  deriving Repr, DecidableEq

/-- responder.rs 14-25: the responder worker. The mpsc channels themselves
are modelled at the call sites (`run` takes the queued requests as a list,
the wallet channel is the send oracle); `cache_http` is modelled by the
guild-roles lookup it is used for. -/
structure Responder where
  max_addresses : Nat
  values : List Value
  guildRoles : GuildId → Option (List (RoleId × Role))

/-- Model of `Vec::pop`: removes and returns the last element. -/
def popLast (l : List α) : Option (α × List α) :=
  match l.reverse with
  | [] => none
  | x :: r => some (x, r.reverse)

/-- The mutable accumulators of `dispense` (responder.rs 138-148), plus the
log of addresses handed to the wallet channel, in the order the sends were
issued. -/
structure DState where
  succeeded : List Address
  failed : List (Address × String)
  unparsed : List String
  sent : List Address
  deriving Repr, DecidableEq

/-- responder.rs 148-172: the `while count <= self.max_addresses` loop,
written with the remaining iteration budget as fuel (`count` starts at 0
and is incremented at the top of every iteration, so the loop body runs at
most `max_addresses + 1` times). Each iteration pops the *last* token;
a valid address is sent to the wallet and filed by the oracle's outcome,
an almost-address is filed as unparsed, and an empty vector breaks. -/
def dispenseLoop (ledger : Nat → SendOutcome) :
    Nat → List AddressOrAlmost → DState → Except Fatal (DState × List AddressOrAlmost)
  | 0, addresses, st => Except.ok (st, addresses)
  | fuel + 1, addresses, st =>
    match popLast addresses with
    | none => Except.ok (st, addresses)
    | some (tok, rest) =>
      match tok with
      | AddressOrAlmost.Address addr =>
        match ledger st.sent.length with
        | SendOutcome.sendFailed => Except.error Fatal.requestChannelClosed
        | SendOutcome.recvFailed => Except.error Fatal.resultChannelClosed
        | SendOutcome.confirmed =>
          dispenseLoop ledger fuel rest
            { st with sent := st.sent ++ [addr], succeeded := st.succeeded ++ [addr] }
        | SendOutcome.rejected e =>
          dispenseLoop ledger fuel rest
            { st with sent := st.sent ++ [addr], failed := st.failed ++ [(addr, e)] }
      | AddressOrAlmost.Almost s =>
        dispenseLoop ledger fuel rest { st with unparsed := st.unparsed ++ [s] }

/-- responder.rs 174-181: the remainder of the list is separated, in order,
into the remaining valid addresses and further unparsed ones (appended to
the unparsed accumulator of the loop). -/
def splitTheRest (addresses : List AddressOrAlmost) (unparsed : List String) :
    List Address × List String :=
  addresses.foldl
    (fun acc tok =>
      match tok with
      | AddressOrAlmost.Address addr => (acc.1 ++ [addr], acc.2)
      | AddressOrAlmost.Almost s => (acc.1, acc.2 ++ [s]))
    ([], unparsed)

/-! ## Summary composition (`reply_dispense_summary`, responder.rs 197-269) -/

/-- responder.rs 225-240: the admin mention for the failed section; joins
the mentions of the guild's administrator roles, or the literal
`Admin(s)` when the message has no guild. -/
def mentionAdmins (r : Responder) (message : Message) : String :=
  match message.guild_id with
  | some guild_id =>
    String.intercalate " "
      ((((r.guildRoles guild_id).getD []).filter
        (fun p => p.2.administrator)).map (fun p => roleMention p.1))
  | none => "Admin(s)"

/-- responder.rs 211-216 as a standalone section. -/
def succeededSection (succeeded_addresses : List Address) : String :=
  if succeeded_addresses.isEmpty then "" else
    succeeded_addresses.foldl (fun resp addr => resp ++ "\n`" ++ addr ++ "`")
      "Successfully sent tokens to the following addresses:"

/-- responder.rs 218-245 as a standalone section (given the admin mention). -/
def failedSection (failed_addresses : List (Address × String))
    (mention_admins : String) : String :=
  if failed_addresses.isEmpty then "" else
    (failed_addresses.foldl
      (fun resp p => resp ++ "\n`" ++ p.1 ++ "` (error: " ++ p.2 ++ ")")
      "Failed to send tokens to the following addresses:\n")
    ++ "\n" ++ mention_admins ++ ": you may want to investigate this error :)"

/-- responder.rs 247-255 as a standalone section. -/
def unparsedSection (unparsed_addresses : List String) : String :=
  if unparsed_addresses.isEmpty then "" else
    unparsed_addresses.foldl (fun resp addr => resp ++ "\n`" ++ addr ++ "`")
      ("\nThe following _look like_ Penumbra addresses, but are invalid "
        ++ "(maybe a typo or old address version?):")

/-- responder.rs 257-266 as a standalone section. -/
def remainingSection (max_addresses : Nat)
    (remaining_addresses : List Address) : String :=
  if remaining_addresses.isEmpty then "" else
    remaining_addresses.foldl (fun resp addr => resp ++ "\n`" ++ addr ++ "`")
      ("\nI\x27m only allowed to send tokens to addresses "
        ++ toString max_addresses
        ++ " at a time; try again later to get tokens for the following addresses:")

/-- responder.rs 197-269: the summary reply, built by the same sequence of
conditional `push_str` blocks as the source. -/
def reply_dispense_summary (r : Responder) (succeeded_addresses : List Address)
    (failed_addresses : List (Address × String))
    (unparsed_addresses : List String) (remaining_addresses : List Address)
    (message : Message) : String :=
  let response := ""
  let response :=
    if !succeeded_addresses.isEmpty then
      succeeded_addresses.foldl (fun resp addr => resp ++ "\n`" ++ addr ++ "`")
        (response ++ "Successfully sent tokens to the following addresses:")
    else response
  let response :=
    if !failed_addresses.isEmpty then
      let base := failed_addresses.foldl
        (fun resp p => resp ++ "\n`" ++ p.1 ++ "` (error: " ++ p.2 ++ ")")
        (response ++ "Failed to send tokens to the following addresses:\n")
      let mention_admins := mentionAdmins r message
      base ++ "\n" ++ mention_admins ++ ": you may want to investigate this error :)"
    else response
  let response :=
    if !unparsed_addresses.isEmpty then
      unparsed_addresses.foldl (fun resp addr => resp ++ "\n`" ++ addr ++ "`")
        (response ++ ("\nThe following _look like_ Penumbra addresses, but are invalid "
          ++ "(maybe a typo or old address version?):"))
    else response
  let response :=
    if !remaining_addresses.isEmpty then
      remaining_addresses.foldl (fun resp addr => resp ++ "\n`" ++ addr ++ "`")
        (response ++ ("\nI\x27m only allowed to send tokens to addresses "
          ++ toString r.max_addresses
          ++ " at a time; try again later to get tokens for the following addresses:"))
    else response
  response

/-- The observable result of one successful `dispense` call: the four
outcome buckets, the send log, and the composed reply. -/
structure DispenseResult where
  succeeded : List Address
  failed : List (Address × String)
  unparsed : List String
  remaining : List Address
  sent : List Address
  response : String
  deriving Repr, DecidableEq

/-- responder.rs 131-195: `Responder::dispense`. Runs the capped loop (the
`while count <= max_addresses` bound gives `max_addresses + 1` iterations),
splits the untouched remainder, and composes the summary. The buckets are
returned alongside the reply string so the theorems can speak about them. -/
def dispense (r : Responder) (ledger : Nat → SendOutcome) (message : Message)
    (addresses : List AddressOrAlmost) : Except Fatal DispenseResult :=
  match dispenseLoop ledger (r.max_addresses + 1) addresses
    { succeeded := [], failed := [], unparsed := [], sent := [] } with
  | Except.error e => Except.error e
  | Except.ok (st, rest) =>
    let split := splitTheRest rest st.unparsed
    let response := reply_dispense_summary r st.succeeded st.failed split.2
      split.1 message
    Except.ok
      { succeeded := st.succeeded, failed := st.failed, unparsed := split.2,
        remaining := split.1, sent := st.sent, response := response }

/-! ## The run loop (`Responder::run`, responder.rs 117-129) -/

/-- A request as it sits in the dispatch queue: the message, its tokens,
and whether the one-shot reply receiver is still alive (the reply is a
best-effort send whose result the source discards with `let _ =`). -/
structure QRequest where
  message : Message
  addresses : List AddressOrAlmost
  receiverAlive : Bool
  deriving Repr, DecidableEq

/-- One reply produced by `run`: what was pushed into the one-shot channel
and whether the receiver was still there to get it. -/
structure SentReply where
  message : Message
  reply : String
  delivered : Bool
  deriving Repr, DecidableEq

/-- responder.rs 117-129 over the queue tail starting at request index
`i` (the index selects each request's send oracle from `ledgers`):
dispense each request (`?` propagates a `Fatal`), then send the reply on
the one-shot channel, ignoring whether the receiver was dropped. -/
def runFrom (r : Responder) (ledgers : Nat → Nat → SendOutcome) :
    Nat → List QRequest → Except Fatal (List SentReply)
  | _, [] => Except.ok []
  | i, q :: rest =>
    match dispense r (ledgers i) q.message q.addresses with
    | Except.error e => Except.error e
    | Except.ok res =>
      let sentReply : SentReply :=
        { message := q.message, reply := res.response,
          delivered := q.receiverAlive }
      match runFrom r ledgers (i + 1) rest with
      | Except.error e => Except.error e
      | Except.ok out => Except.ok (sentReply :: out)

/-- responder.rs 117-129: `Responder::run` consuming the whole queue. -/
def run (r : Responder) (ledgers : Nat → Nat → SendOutcome)
    (queue : List QRequest) : Except Fatal (List SentReply) :=
  runFrom r ledgers 0 queue

/-! ## Configuration validation (`Serve::exec`, serve.rs 66-73)

Only the validation head of `exec` is plain code; everything after it
builds the external workers. The continuation `proceed` stands for that
remainder, so "no worker is started" is "the result does not depend on
`proceed`". Fields of external types (durations, paths) are omitted. -/

structure Serve where
  fee : Nat
  reply_limit : Nat
  sync_retries : Nat
  max_addresses : Nat
  buffer_size : Nat
  node : String
  pd_port : Nat
  rpc_port : Nat
  source_address : Option Nat
  catch_up_batch_size : Nat
  values : List Value

/-- serve.rs 67-72: the validation head of `Serve::exec`; `proceed` is the
rest of the function (wallet, responder, catch-up and chat-client setup). -/
def Serve.exec (s : Serve) (proceed : Serve → Except String α) :
    Except String α :=
  if s.values.isEmpty then
    Except.error "at least one value must be provided"
  else if s.values.any (fun v => v.amount == 0) then
    Except.error "all values must be non-zero"
  else
    proceed s

/-! ## Shared fixtures and helper definitions -/

/-- A responder with the default per-message cap 1, no values, no guilds. -/
def respCap1 : Responder :=
  { max_addresses := 1, values := [], guildRoles := fun _ => none }

/-- A guild-less message with empty content. -/
def msgPlain : Message :=
  { id := 0, content := "", guild_id := none, author_name := "user" }

/-- The send oracle that confirms every send. -/
def okOracle : Nat → SendOutcome := fun _ => SendOutcome.confirmed

/-- An address-shaped sample string: the prefix and a 126-character body. -/
def addrSample : String := "penumbrav0t1" ++ String.mk (List.replicate 126 'q')

/-- A message whose text is free of address-shaped substrings. -/
def msgHello : Message :=
  { id := 1, content := "hello there", guild_id := none, author_name := "u" }

/-- A message whose text is exactly one address-shaped string. -/
def msgWithAddr : Message :=
  { id := 2, content := addrSample, guild_id := none, author_name := "u" }

/-- The request `try_from_message` builds for `msgWithAddr` when the
address codec rejects everything. -/
def reqWithAddr : Request :=
  { message := msgWithAddr, addresses := [AddressOrAlmost.Almost addrSample] }

/-- The tokens accounted for by the loop accumulators. -/
def stTokens (st : DState) : Multiset AddressOrAlmost :=
  (↑(st.succeeded.map AddressOrAlmost.Address) : Multiset AddressOrAlmost)
  + ↑(st.failed.map (fun p => AddressOrAlmost.Address p.1))
  + ↑(st.unparsed.map AddressOrAlmost.Almost)

/-- Pair each address of a send log with the business error the wallet
reported for its send, the n-th send getting error `es n`. -/
def tagErrs (es : Nat → String) : Nat → List Address → List (Address × String)
  | _, [] => []
  | n, a :: rest => (a, es n) :: tagErrs es (n + 1) rest

/-- The two-request queue used to witness C9: one live receiver, one
dropped receiver. -/
def queueW : List QRequest :=
  [{ message := msgPlain, addresses := [], receiverAlive := true },
   { message := msgHello, addresses := [], receiverAlive := false }]

/-- The replies `run` produces for `queueW`. -/
def outW : List SentReply :=
  [{ message := msgPlain, reply := "", delivered := true },
   { message := msgHello, reply := "", delivered := false }]

/-- Occurrence of `small` as a contiguous substring of `big`. -/
def strOccurs (small big : String) : Prop :=
  ∃ pre post, big = pre ++ small ++ post

/-- Witness for C7: one failed address on a guild-less message and one
deferred address under cap 1 — the failed section carries the `Admin(s)`
fallback and the deferred section carries the cap value. -/

theorem popLast_nil : popLast ([] : List α) = none := rfl

theorem popLast_concat (l : List α) (x : α) : popLast (l ++ [x]) = some (x, l) := by
  simp [popLast]

theorem popLast_eq_none {l : List α} (h : popLast l = none) : l = [] := by
  unfold popLast at h
  cases hrev : l.reverse with
  | nil => exact List.reverse_eq_nil_iff.mp hrev
  | cons x r => rw [hrev] at h; simp at h

theorem popLast_eq_some {l : List α} {x : α} {r : List α}
    (h : popLast l = some (x, r)) : l = r ++ [x] := by
  unfold popLast at h
  cases hrev : l.reverse with
  | nil => rw [hrev] at h; simp at h
  | cons y s =>
    rw [hrev] at h
    simp only [Option.some.injEq, Prod.mk.injEq] at h
    obtain ⟨rfl, rfl⟩ := h
    have := congrArg List.reverse hrev
    simpa using this

theorem foldl_push (g : α → String) :
    ∀ (l : List α) (a b : String),
      l.foldl (fun resp x => resp ++ g x) (a ++ b)
        = a ++ l.foldl (fun resp x => resp ++ g x) b := by
  intro l
  induction l with
  | nil => intro a b; rfl
  | cons x xs ih =>
    intro a b
    simp only [List.foldl_cons]
    rw [String.append_assoc]
    exact ih a (b ++ g x)

theorem foldl_push_eq (g : α → String) (l : List α) (b : String) :
    l.foldl (fun resp x => resp ++ g x) b
      = b ++ l.foldl (fun resp x => resp ++ g x) "" := by
  have h := foldl_push g l b ""
  rw [String.append_empty] at h
  exact h

theorem foldl_push_length (g : α → String) (l : List α) (b : String) :
    b.length ≤ (l.foldl (fun resp x => resp ++ g x) b).length := by
  rw [foldl_push_eq, String.length_append]
  omega

/-! ## C10: configuration validation -/

/-- C10: for every configuration with an empty values list or a value of
zero amount, `Serve::exec` fails its validation head with an error, and
the result is the same whatever the rest of the function would do — no
wallet, responder, catch-up or chat-client task is started. -/
theorem serve_exec_validates_values {α : Type} (s : Serve)
    (p q : Serve → Except String α)
    (h : s.values = [] ∨ ∃ v ∈ s.values, v.amount = 0) :
    (∃ msg, Serve.exec s p = Except.error msg) ∧ Serve.exec s p = Serve.exec s q := by
  unfold Serve.exec
  rcases h with h | ⟨v, hv, hz⟩
  · simp [h]
  · have hne : s.values.isEmpty = false := by
      cases hval : s.values with
      | nil => rw [hval] at hv; cases hv
      | cons a l => rfl
    have hany : s.values.any (fun v => v.amount == 0) = true :=
      List.any_eq_true.mpr ⟨v, hv, by simp [hz]⟩
    simp [hne, hany]

/-- Witness for C10 at a configuration holding one zero-amount value. -/
theorem serve_exec_validates_values_witness :
    (∃ msg,
      Serve.exec
        { fee := 0, reply_limit := 5, sync_retries := 5, max_addresses := 1,
          buffer_size := 100, node := "testnet.penumbra.zone", pd_port := 8080,
          rpc_port := 26657, source_address := none, catch_up_batch_size := 25,
          values := [{ amount := 0, asset_id := 1 }] }
        (fun s => Except.ok s.fee) = Except.error msg) ∧
    Serve.exec
      { fee := 0, reply_limit := 5, sync_retries := 5, max_addresses := 1,
        buffer_size := 100, node := "testnet.penumbra.zone", pd_port := 8080,
        rpc_port := 26657, source_address := none, catch_up_batch_size := 25,
        values := [{ amount := 0, asset_id := 1 }] }
      (fun s => Except.ok s.fee)
      = Serve.exec
        { fee := 0, reply_limit := 5, sync_retries := 5, max_addresses := 1,
          buffer_size := 100, node := "testnet.penumbra.zone", pd_port := 8080,
          rpc_port := 26657, source_address := none, catch_up_batch_size := 25,
          values := [{ amount := 0, asset_id := 1 }] }
        (fun _ => Except.ok 7) :=
  serve_exec_validates_values _ _ _
    (Or.inr ⟨{ amount := 0, asset_id := 1 }, by simp, rfl⟩)

/-! ## C5: a request exists iff the scan found a token -/

/-- C5: `Request::try_from_message` builds a request iff the address scan
of the message text yields at least one token; with zero tokens the very
message comes back as the error, and every constructed request carries the
scan's token sequence, which is never empty. -/
theorem tryFromMessage_request_iff_tokens
    (addrParse : String → Option Address) (message : Message) :
    (tryFromMessage addrParse message = Except.error message
      ↔ extractTokens addrParse message.content = [])
    ∧ (∀ m', tryFromMessage addrParse message = Except.error m' → m' = message)
    ∧ (∀ req, tryFromMessage addrParse message = Except.ok req →
        req.message = message
        ∧ req.addresses = extractTokens addrParse message.content
        ∧ req.addresses ≠ []) := by
  unfold tryFromMessage
  cases h : (extractTokens addrParse message.content).isEmpty with
  | true =>
    have hnil : extractTokens addrParse message.content = [] :=
      List.isEmpty_iff.mp h
    simp [h, hnil]
  | false =>
    have hnil : extractTokens addrParse message.content ≠ [] := by
      intro hn
      rw [hn] at h
      simp at h
    simp only [h, Bool.false_eq_true, if_false, reduceCtorEq, false_iff]
    refine ⟨hnil, fun m' hm' => hm'.elim, fun req hreq => ?_⟩
    cases hreq
    exact ⟨rfl, rfl, hnil⟩

/-- Witness for C5: a token-free message is handed back unchanged, and a
message holding one address-shaped string yields a request with a
non-empty token sequence. -/
theorem tryFromMessage_request_iff_tokens_witness :
    tryFromMessage (fun _ => none) msgHello = Except.error msgHello
    ∧ reqWithAddr.addresses ≠ [] := by
  constructor
  · exact (tryFromMessage_request_iff_tokens (fun _ => none) msgHello).1.mpr rfl
  · exact ((tryFromMessage_request_iff_tokens (fun _ => none) msgWithAddr).2.2
      reqWithAddr (by rfl)).2.2

/-! ## C2 and C3: the cap loop (code behaviour at concrete inputs) -/

/-- C2 (code behaviour): with the configured cap `max_addresses = 1` and a
request of two valid addresses, the `while count <= max_addresses` loop
runs `max_addresses + 1 = 2` iterations and services *both* addresses —
one more than the cap — deferring none. -/
theorem dispense_exceeds_cap_by_one :
    (dispense respCap1 okOracle msgPlain
      [AddressOrAlmost.Address "A1", AddressOrAlmost.Address "A2"]).map
      (fun o => (o.succeeded, o.remaining))
    = Except.ok (["A2", "A1"], []) := by rfl

/-- C3 (code behaviour): with cap 1, inserting a malformed token after two
valid addresses consumes one of the two loop iterations, so only one valid
address is serviced and the other is deferred — while without the
malformed token both valid addresses are serviced. The malformed token is
still filed as unparsed and gets no ledger send. -/
theorem malformed_consumes_cap_iteration :
    (dispense respCap1 okOracle msgPlain
      [AddressOrAlmost.Address "A1", AddressOrAlmost.Address "A2",
        AddressOrAlmost.Almost "penumbrav9t1oops"]).map
      (fun o => (o.succeeded, o.unparsed, o.remaining, o.sent))
    = Except.ok (["A2"], ["penumbrav9t1oops"], ["A1"], ["A2"])
    ∧ (dispense respCap1 okOracle msgPlain
        [AddressOrAlmost.Address "A1", AddressOrAlmost.Address "A2"]).map
        (fun o => o.succeeded)
      = Except.ok ["A2", "A1"] := ⟨rfl, rfl⟩

/-! ## C4: dispatch order (counterexample to the spec's ordering) -/

/-- C4 counterexample: with cap 1 and a request of two valid addresses in
message order `first`, `second`, the send log shows the *second* address
dispatched first (the loop pops from the end of the vector), and no
address is deferred — contradicting "the first address is serviced and the
second is the one filed as deferred". -/
theorem dispense_order_counterexample :
    (dispense respCap1 okOracle msgPlain
      [AddressOrAlmost.Address "first", AddressOrAlmost.Address "second"]).map
      (fun o => (o.sent, o.remaining))
    = Except.ok (["second", "first"], []) := by rfl

/-! ## C9: one reply per request (counterexample to the universal claim) -/

/-- C9 counterexample: a structural wallet failure makes `dispense` — and
with it `run` — return the error before `response.send` is reached, so the
one queued request is dropped with no reply at all. -/
theorem run_no_reply_on_structural_failure :
    run respCap1 (fun _ _ => SendOutcome.sendFailed)
      [{ message := msgPlain, addresses := [AddressOrAlmost.Address "addr"],
         receiverAlive := true }]
    = Except.error Fatal.requestChannelClosed := by rfl

/-! ## C1: the four buckets partition the token sequence -/

theorem dispenseLoop_tokens (ledger : Nat → SendOutcome) :
    ∀ (fuel : Nat) (addresses : List AddressOrAlmost) (st st' : DState)
      (rest : List AddressOrAlmost),
      dispenseLoop ledger fuel addresses st = Except.ok (st', rest) →
      stTokens st' + ↑rest = stTokens st + ↑addresses := by
  intro fuel
  induction fuel with
  | zero =>
    intro addresses st st' rest h
    simp only [dispenseLoop, Except.ok.injEq, Prod.mk.injEq] at h
    obtain ⟨rfl, rfl⟩ := h
    rfl
  | succ fuel ih =>
    intro addresses st st' rest h
    simp only [dispenseLoop] at h
    cases hpop : popLast addresses with
    | none =>
      simp only [hpop, Except.ok.injEq, Prod.mk.injEq] at h
      obtain ⟨rfl, rfl⟩ := h
      rfl
    | some p =>
      obtain ⟨tok, rest0⟩ := p
      have haddr : addresses = rest0 ++ [tok] := popLast_eq_some hpop
      subst haddr
      simp only [hpop] at h
      cases tok with
      | Almost s =>
        have hrec := ih rest0
          { succeeded := st.succeeded, failed := st.failed,
            unparsed := st.unparsed ++ [s], sent := st.sent } st' rest h
        rw [hrec]
        simp only [stTokens, List.map_append, List.map_cons, List.map_nil,
          ← Multiset.coe_add]
        abel
      | Address addr =>
        dsimp only at h
        cases hl : ledger st.sent.length with
        | sendFailed => simp only [hl, reduceCtorEq] at h
        | recvFailed => simp only [hl, reduceCtorEq] at h
        | confirmed =>
          simp only [hl] at h
          have hrec := ih rest0
            { succeeded := st.succeeded ++ [addr], failed := st.failed,
              unparsed := st.unparsed, sent := st.sent ++ [addr] } st' rest h
          rw [hrec]
          simp only [stTokens, List.map_append, List.map_cons, List.map_nil,
            ← Multiset.coe_add]
          abel
        | rejected e =>
          simp only [hl] at h
          have hrec := ih rest0
            { succeeded := st.succeeded, failed := st.failed ++ [(addr, e)],
              unparsed := st.unparsed, sent := st.sent ++ [addr] } st' rest h
          rw [hrec]
          simp only [stTokens, List.map_append, List.map_cons, List.map_nil,
            ← Multiset.coe_add]
          abel

theorem splitFold_tokens :
    ∀ (rest : List AddressOrAlmost) (acc : List Address × List String),
      (↑((rest.foldl
          (fun acc tok =>
            match tok with
            | AddressOrAlmost.Address addr => (acc.1 ++ [addr], acc.2)
            | AddressOrAlmost.Almost s => (acc.1, acc.2 ++ [s])) acc).1.map
          AddressOrAlmost.Address) : Multiset AddressOrAlmost)
        + ↑((rest.foldl
          (fun acc tok =>
            match tok with
            | AddressOrAlmost.Address addr => (acc.1 ++ [addr], acc.2)
            | AddressOrAlmost.Almost s => (acc.1, acc.2 ++ [s])) acc).2.map
          AddressOrAlmost.Almost)
      = ↑(acc.1.map AddressOrAlmost.Address) + ↑(acc.2.map AddressOrAlmost.Almost)
        + (↑rest : Multiset AddressOrAlmost) := by
  intro rest
  induction rest with
  | nil =>
    intro acc
    simp
  | cons tok rest0 ih =>
    intro acc
    simp only [List.foldl_cons]
    cases tok with
    | Address addr =>
      rw [ih]
      simp only [List.map_append, List.map_cons, List.map_nil, ← Multiset.coe_add,
        ← Multiset.cons_coe, ← Multiset.singleton_add, Multiset.coe_singleton]
      abel
    | Almost s =>
      rw [ih]
      simp only [List.map_append, List.map_cons, List.map_nil, ← Multiset.coe_add,
        ← Multiset.cons_coe, ← Multiset.singleton_add, Multiset.coe_singleton]
      abel

/-- C1: whenever `dispense` completes, the four outcome buckets —
succeeded, failed, unparsed and remaining/deferred — partition the
request's token sequence: their union, element for element (with
multiplicity), is exactly the original token sequence; no token is lost
or duplicated. -/
theorem dispense_partitions_tokens (r : Responder) (ledger : Nat → SendOutcome)
    (message : Message) (addresses : List AddressOrAlmost) (o : DispenseResult)
    (h : dispense r ledger message addresses = Except.ok o) :
    (↑(o.succeeded.map AddressOrAlmost.Address) : Multiset AddressOrAlmost)
      + ↑(o.failed.map (fun p => AddressOrAlmost.Address p.1))
      + ↑(o.unparsed.map AddressOrAlmost.Almost)
      + ↑(o.remaining.map AddressOrAlmost.Address)
    = ↑addresses := by
  unfold dispense at h
  cases hloop : dispenseLoop ledger (r.max_addresses + 1) addresses
    { succeeded := [], failed := [], unparsed := [], sent := [] } with
  | error e => rw [hloop] at h; cases h
  | ok p =>
    obtain ⟨st, rest⟩ := p
    rw [hloop] at h
    simp only [Except.ok.injEq] at h
    subst h
    have h0 := dispenseLoop_tokens ledger (r.max_addresses + 1) addresses _ st rest
      hloop
    have hsplit := splitFold_tokens rest ([], st.unparsed)
    simp only [stTokens, List.map_nil, Multiset.coe_nil, add_zero, zero_add] at h0
    simp only [List.map_nil, Multiset.coe_nil, zero_add] at hsplit
    simp only [splitTheRest]
    set msucc := (↑(st.succeeded.map AddressOrAlmost.Address) :
      Multiset AddressOrAlmost) with hms
    set mfail := (↑(st.failed.map (fun p => AddressOrAlmost.Address p.1)) :
      Multiset AddressOrAlmost) with hmf
    set munp := (↑(st.unparsed.map AddressOrAlmost.Almost) :
      Multiset AddressOrAlmost) with hmu
    set mrest := (↑rest : Multiset AddressOrAlmost) with hmr
    set mf1 := (↑((rest.foldl
      (fun acc tok =>
        match tok with
        | AddressOrAlmost.Address addr => (acc.1 ++ [addr], acc.2)
        | AddressOrAlmost.Almost s => (acc.1, acc.2 ++ [s]))
      ([], st.unparsed)).1.map AddressOrAlmost.Address) :
      Multiset AddressOrAlmost) with hm1
    set mf2 := (↑((rest.foldl
      (fun acc tok =>
        match tok with
        | AddressOrAlmost.Address addr => (acc.1 ++ [addr], acc.2)
        | AddressOrAlmost.Almost s => (acc.1, acc.2 ++ [s]))
      ([], st.unparsed)).2.map AddressOrAlmost.Almost) :
      Multiset AddressOrAlmost) with hm2
    calc msucc + mfail + mf2 + mf1
        = msucc + mfail + (mf1 + mf2) := by abel
      _ = msucc + mfail + (munp + mrest) := by rw [hsplit]
      _ = msucc + mfail + munp + mrest := by abel
      _ = ↑addresses := h0

/-- Witness for C1 at a concrete request of one valid and one malformed
token under an all-confirming wallet. -/
theorem dispense_partitions_tokens_witness :
    ∃ o, dispense respCap1 okOracle msgPlain
        [AddressOrAlmost.Address "a", AddressOrAlmost.Almost "b"] = Except.ok o
      ∧ (↑(o.succeeded.map AddressOrAlmost.Address) : Multiset AddressOrAlmost)
          + ↑(o.failed.map (fun p => AddressOrAlmost.Address p.1))
          + ↑(o.unparsed.map AddressOrAlmost.Almost)
          + ↑(o.remaining.map AddressOrAlmost.Address)
        = ↑[AddressOrAlmost.Address "a", AddressOrAlmost.Almost "b"] := by
  refine ⟨_, rfl, ?_⟩
  exact dispense_partitions_tokens respCap1 okOracle msgPlain _ _ rfl

/-! ## C4: what order the loop actually services -/

theorem dispenseLoop_confirmed :
    ∀ (fuel : Nat) (addrs : List Address) (st : DState),
      dispenseLoop (fun _ => SendOutcome.confirmed) fuel
        (addrs.map AddressOrAlmost.Address) st
      = Except.ok
        ({ succeeded := st.succeeded ++ (addrs.drop (addrs.length - fuel)).reverse,
           failed := st.failed,
           unparsed := st.unparsed,
           sent := st.sent ++ (addrs.drop (addrs.length - fuel)).reverse },
         (addrs.take (addrs.length - fuel)).map AddressOrAlmost.Address) := by
  intro fuel
  induction fuel with
  | zero =>
    intro addrs st
    simp [dispenseLoop]
  | succ fuel ih =>
    intro addrs st
    rcases addrs.eq_nil_or_concat with rfl | ⟨as, a, rfl⟩
    · simp [dispenseLoop, popLast_nil]
    · have hmap : (as ++ [a]).map AddressOrAlmost.Address
          = as.map AddressOrAlmost.Address ++ [AddressOrAlmost.Address a] :=
        List.map_append _ _ _
      have hd : as.length - fuel ≤ as.length := Nat.sub_le _ _
      simp only [List.concat_eq_append, dispenseLoop, hmap, popLast_concat]
      rw [ih as
        { succeeded := st.succeeded ++ [a], failed := st.failed,
          unparsed := st.unparsed, sent := st.sent ++ [a] }]
      simp only [List.length_append, List.length_cons, List.length_nil,
        Nat.succ_sub_succ, Except.ok.injEq, Prod.mk.injEq]
      constructor
      · rw [List.drop_append_of_le_length hd]
        simp [List.reverse_append, List.append_assoc]
      · rw [List.take_append_of_le_length hd]

theorem splitFold_map_address :
    ∀ (l : List Address) (acc : List Address × List String),
      (l.map AddressOrAlmost.Address).foldl
        (fun acc tok =>
          match tok with
          | AddressOrAlmost.Address addr => (acc.1 ++ [addr], acc.2)
          | AddressOrAlmost.Almost s => (acc.1, acc.2 ++ [s])) acc
      = (acc.1 ++ l, acc.2) := by
  intro l
  induction l with
  | nil => intro acc; simp
  | cons a l ih =>
    intro acc
    simp only [List.map_cons, List.foldl_cons]
    rw [ih (acc.1 ++ [a], acc.2)]
    simp [List.append_assoc]

/-- C4 as the code has it: within a request whose tokens are all valid
addresses, the loop pops from the *end* of the vector, so sends are
issued to the Ledger Worker in reverse order of appearance; the loop's
`max_addresses + 1` pops service the last `min (len, max_addresses + 1)`
addresses of the message (last-to-first), and the deferred addresses are
exactly the leftover front of the message, in order of appearance. -/
theorem dispense_services_last_tokens_first (k : Nat) (values : List Value)
    (roles : GuildId → Option (List (RoleId × Role))) (message : Message)
    (addrs : List Address) :
    ∃ o, dispense { max_addresses := k, values := values, guildRoles := roles }
        (fun _ => SendOutcome.confirmed) message
        (addrs.map AddressOrAlmost.Address)
      = Except.ok o
      ∧ o.sent = (addrs.drop (addrs.length - (k + 1))).reverse
      ∧ o.succeeded = o.sent
      ∧ o.failed = []
      ∧ o.unparsed = []
      ∧ o.remaining = addrs.take (addrs.length - (k + 1)) := by
  unfold dispense
  rw [dispenseLoop_confirmed (k + 1) addrs
    { succeeded := [], failed := [], unparsed := [], sent := [] }]
  simp only [splitTheRest, splitFold_map_address, List.nil_append]
  refine ⟨_, rfl, rfl, rfl, rfl, rfl, rfl⟩

/-! ## C8: structural failures are fatal, business failures are not -/

theorem tagErrs_append_one (es : Nat → String) :
    ∀ (l : List Address) (n : Nat) (a : Address),
      tagErrs es n (l ++ [a]) = tagErrs es n l ++ [(a, es (n + l.length))] := by
  intro l
  induction l with
  | nil => intro n a; simp [tagErrs]
  | cons b l ih =>
    intro n a
    have hn : n + 1 + l.length = n + (l.length + 1) := by omega
    simp only [List.cons_append, tagErrs, List.length_cons, List.append_eq, ih, hn]

theorem dispenseLoop_rejected (es : Nat → String) :
    ∀ (fuel : Nat) (addresses : List AddressOrAlmost) (st : DState),
      st.succeeded = [] → st.failed = tagErrs es 0 st.sent →
      ∃ st' rest,
        dispenseLoop (fun n => SendOutcome.rejected (es n)) fuel addresses st
          = Except.ok (st', rest)
        ∧ st'.succeeded = [] ∧ st'.failed = tagErrs es 0 st'.sent := by
  intro fuel
  induction fuel with
  | zero =>
    intro addresses st hs hf
    exact ⟨st, addresses, rfl, hs, hf⟩
  | succ fuel ih =>
    intro addresses st hs hf
    cases hpop : popLast addresses with
    | none =>
      refine ⟨st, addresses, ?_, hs, hf⟩
      simp [dispenseLoop, hpop]
    | some p =>
      obtain ⟨tok, rest0⟩ := p
      cases tok with
      | Address addr =>
        let st2 : DState :=
          { succeeded := st.succeeded,
            failed := st.failed ++ [(addr, es st.sent.length)],
            unparsed := st.unparsed, sent := st.sent ++ [addr] }
        have hs2 : st2.succeeded = [] := hs
        have hf2 : st2.failed = tagErrs es 0 st2.sent := by
          show st.failed ++ [(addr, es st.sent.length)]
            = tagErrs es 0 (st.sent ++ [addr])
          rw [tagErrs_append_one es st.sent 0 addr, Nat.zero_add, hf]
        obtain ⟨st', rest, heq, hs', hf'⟩ := ih rest0 st2 hs2 hf2
        refine ⟨st', rest, ?_, hs', hf'⟩
        simp only [dispenseLoop, hpop]
        exact heq
      | Almost s =>
        let st2 : DState :=
          { succeeded := st.succeeded, failed := st.failed,
            unparsed := st.unparsed ++ [s], sent := st.sent }
        have hs2 : st2.succeeded = [] := hs
        have hf2 : st2.failed = tagErrs es 0 st2.sent := hf
        obtain ⟨st', rest, heq, hs', hf'⟩ := ih rest0 st2 hs2 hf2
        refine ⟨st', rest, ?_, hs', hf'⟩
        simp only [dispenseLoop, hpop]
        exact heq

theorem dispense_rejected_ok (r : Responder) (es : Nat → String)
    (message : Message) (addresses : List AddressOrAlmost) :
    ∃ o, dispense r (fun n => SendOutcome.rejected (es n)) message addresses
        = Except.ok o
      ∧ o.succeeded = [] ∧ o.failed = tagErrs es 0 o.sent := by
  obtain ⟨st', rest, heq, hs', hf'⟩ :=
    dispenseLoop_rejected es (r.max_addresses + 1) addresses
      { succeeded := [], failed := [], unparsed := [], sent := [] } rfl rfl
  unfold dispense
  rw [heq]
  exact ⟨_, rfl, hs', hf'⟩

theorem runFrom_rejected_ok (r : Responder) (es : Nat → String) :
    ∀ (queue : List QRequest) (i : Nat),
      ∃ out, runFrom r (fun _ n => SendOutcome.rejected (es n)) i queue
          = Except.ok out
        ∧ out.length = queue.length := by
  intro queue
  induction queue with
  | nil => intro i; exact ⟨[], rfl, rfl⟩
  | cons q rest ih =>
    intro i
    obtain ⟨o, ho, _, _⟩ := dispense_rejected_ok r es q.message q.addresses
    obtain ⟨out, hout, hlen⟩ := ih (i + 1)
    let sr : SentReply :=
      { message := q.message, reply := o.response, delivered := q.receiverAlive }
    refine ⟨sr :: out, ?_, by simp [hlen]⟩
    simp only [runFrom, ho, hout]

/-- C8: a structural failure talking to the wallet worker — the request
channel or the per-send result channel closed — makes `dispense` (and
through it `run`) return the error, terminating the responder; a business
error reported by the wallet for a send is never fatal: the address is
filed in the failed bucket with that send's error detail and processing
continues through the rest of the tokens and the rest of the queue. -/
theorem ledger_failure_policy :
    (∀ (r : Responder) (message : Message) (a : Address),
      dispense r (fun _ => SendOutcome.sendFailed) message
          [AddressOrAlmost.Address a]
        = Except.error Fatal.requestChannelClosed)
    ∧ (∀ (r : Responder) (message : Message) (a : Address),
      dispense r (fun _ => SendOutcome.recvFailed) message
          [AddressOrAlmost.Address a]
        = Except.error Fatal.resultChannelClosed)
    ∧ (∀ (r : Responder) (ledgers : Nat → Nat → SendOutcome) (q : QRequest)
        (rest : List QRequest) (e : Fatal),
      dispense r (ledgers 0) q.message q.addresses = Except.error e →
      run r ledgers (q :: rest) = Except.error e)
    ∧ (∀ (r : Responder) (es : Nat → String) (message : Message)
        (addresses : List AddressOrAlmost),
      ∃ o, dispense r (fun n => SendOutcome.rejected (es n)) message addresses
          = Except.ok o
        ∧ o.succeeded = [] ∧ o.failed = tagErrs es 0 o.sent)
    ∧ (∀ (r : Responder) (es : Nat → String) (queue : List QRequest),
      ∃ out, run r (fun _ n => SendOutcome.rejected (es n)) queue = Except.ok out
        ∧ out.length = queue.length) := by
  refine ⟨?_, ?_, ?_, ?_, ?_⟩
  · intro r message a
    simp [dispense, dispenseLoop, popLast]
  · intro r message a
    simp [dispense, dispenseLoop, popLast]
  · intro r ledgers q rest e h
    unfold run runFrom
    rw [h]
  · intro r es message addresses
    exact dispense_rejected_ok r es message addresses
  · intro r es queue
    exact runFrom_rejected_ok r es queue 0

/-- Witness for C8: a closed result-channel failure on a concrete
single-address request terminates `run` with the propagated error. -/
theorem ledger_failure_policy_witness :
    run respCap1 (fun _ _ => SendOutcome.recvFailed)
      [{ message := msgPlain, addresses := [AddressOrAlmost.Address "addr"],
         receiverAlive := true }]
    = Except.error Fatal.resultChannelClosed :=
  ledger_failure_policy.2.2.1 respCap1 (fun _ _ => SendOutcome.recvFailed)
    { message := msgPlain, addresses := [AddressOrAlmost.Address "addr"],
      receiverAlive := true }
    [] Fatal.resultChannelClosed rfl

/-! ## C9: one best-effort reply per dispensed request -/

theorem runFrom_ok_shape (r : Responder) (ledgers : Nat → Nat → SendOutcome) :
    ∀ (queue : List QRequest) (i : Nat) (out : List SentReply),
      runFrom r ledgers i queue = Except.ok out →
      out.length = queue.length
      ∧ ∀ (j : Nat) (h1 : j < out.length) (h2 : j < queue.length),
          (out.get ⟨j, h1⟩).message = (queue.get ⟨j, h2⟩).message
          ∧ (out.get ⟨j, h1⟩).delivered = (queue.get ⟨j, h2⟩).receiverAlive := by
  intro queue
  induction queue with
  | nil =>
    intro i out h
    simp only [runFrom, Except.ok.injEq] at h
    subst h
    exact ⟨rfl, fun j h1 h2 => absurd h2 (by simp)⟩
  | cons q rest ih =>
    intro i out h
    simp only [runFrom] at h
    cases hdisp : dispense r (ledgers i) q.message q.addresses with
    | error e => rw [hdisp] at h; cases h
    | ok res =>
      rw [hdisp] at h
      cases hrec : runFrom r ledgers (i + 1) rest with
      | error e => rw [hrec] at h; exact Except.noConfusion h
      | ok out0 =>
        simp only [hrec, Except.ok.injEq] at h
        subst h
        obtain ⟨hlen, hidx⟩ := ih (i + 1) out0 hrec
        refine ⟨by simp [hlen], ?_⟩
        intro j h1 h2
        cases j with
        | zero => exact ⟨rfl, rfl⟩
        | succ j =>
          exact hidx j (by simpa using h1) (by simpa using h2)

theorem runFrom_alive_invariance (r : Responder)
    (ledgers : Nat → Nat → SendOutcome) (b : Bool) :
    ∀ (queue : List QRequest) (i : Nat),
      runFrom r ledgers i (queue.map (fun q => { q with receiverAlive := b }))
        = (runFrom r ledgers i queue).map
          (List.map (fun s => { s with delivered := b })) := by
  intro queue
  induction queue with
  | nil => intro i; rfl
  | cons q rest ih =>
    intro i
    simp only [List.map_cons, runFrom]
    cases hdisp : dispense r (ledgers i) q.message q.addresses with
    | error e => simp [Except.map]
    | ok res =>
      rw [ih (i + 1)]
      cases hrec : runFrom r ledgers (i + 1) rest with
      | error e => simp [Except.map]
      | ok out => simp [Except.map]

/-- C9 (amended): for every queue that `run` drains without a structural
ledger failure, exactly one reply is pushed into each request's one-shot
channel — the i-th reply pairs the i-th request's message with its
summary, and whether it was actually delivered equals whether the
receiver was still alive; a dropped receiver is swallowed: flipping every
request's receiver-alive flag changes only the delivery marks, never
whether `run` succeeds or what it replies. -/
theorem run_one_reply_per_dispensed_request (r : Responder)
    (ledgers : Nat → Nat → SendOutcome) (queue : List QRequest) :
    (∀ out, run r ledgers queue = Except.ok out →
      out.length = queue.length
      ∧ ∀ (j : Nat) (h1 : j < out.length) (h2 : j < queue.length),
          (out.get ⟨j, h1⟩).message = (queue.get ⟨j, h2⟩).message
          ∧ (out.get ⟨j, h1⟩).delivered = (queue.get ⟨j, h2⟩).receiverAlive)
    ∧ ∀ b, run r ledgers (queue.map (fun q => { q with receiverAlive := b }))
        = (run r ledgers queue).map
          (List.map (fun s => { s with delivered := b })) :=
  ⟨fun out h => runFrom_ok_shape r ledgers queue 0 out h,
   fun b => runFrom_alive_invariance r ledgers b queue 0⟩

/-- Witness for C9 (amended) on `queueW`: both requests get exactly one
reply, and the dropped receiver of the second request is recorded but
does not fail the run. -/
theorem run_one_reply_per_dispensed_request_witness :
    outW.length = queueW.length
    ∧ (outW.get ⟨1, by decide⟩).delivered
      = (queueW.get ⟨1, by decide⟩).receiverAlive := by
  obtain ⟨hlen, hidx⟩ :=
    (run_one_reply_per_dispensed_request respCap1
      (fun _ _ => SendOutcome.confirmed) queueW).1 outW rfl
  exact ⟨hlen, (hidx 1 (by decide) (by decide)).2⟩

/-! ## C6: extraction is ordered left-to-right and keeps near-misses -/

theorem findAddressesGo_mem :
    ∀ (fuel : Nat) (l : List Char) (pos : Nat) (pm : Nat × String),
      pm ∈ findAddressesGo fuel l pos →
      pos ≤ pm.1
      ∧ (l.drop (pm.1 - pos)).take addressMatchLen = pm.2.data
      ∧ isAddressShaped pm.2.data = true := by
  intro fuel
  induction fuel with
  | zero =>
    intro l pos pm h
    simp [findAddressesGo] at h
  | succ fuel ih =>
    intro l pos pm h
    cases l with
    | nil => simp [findAddressesGo] at h
    | cons c rest =>
      simp only [findAddressesGo] at h
      by_cases hshape : isAddressShaped ((c :: rest).take addressMatchLen) = true
      · rw [if_pos hshape] at h
        rcases List.mem_cons.mp h with hhead | htail
        · subst hhead
          refine ⟨Nat.le_refl _, ?_, ?_⟩
          · simp
          · simpa using hshape
        · obtain ⟨hle, hsub, hsh⟩ := ih _ _ pm htail
          refine ⟨by omega, ?_, hsh⟩
          rw [List.drop_drop] at hsub
          have harith : addressMatchLen + (pm.1 - (pos + addressMatchLen))
              = pm.1 - pos := by
            unfold addressMatchLen at *
            omega
          rwa [harith] at hsub
      · rw [if_neg hshape] at h
        obtain ⟨hle, hsub, hsh⟩ := ih _ _ pm h
        refine ⟨by omega, ?_, hsh⟩
        have harith : pm.1 - pos = (pm.1 - (pos + 1)) + 1 := by omega
        rw [harith, List.drop_succ_cons]
        exact hsub

theorem findAddressesGo_sorted :
    ∀ (fuel : Nat) (l : List Char) (pos : Nat),
      List.Chain' (· < ·) ((findAddressesGo fuel l pos).map Prod.fst) := by
  intro fuel
  induction fuel with
  | zero => intro l pos; simp [findAddressesGo]
  | succ fuel ih =>
    intro l pos
    cases l with
    | nil => simp [findAddressesGo]
    | cons c rest =>
      simp only [findAddressesGo]
      by_cases hshape : isAddressShaped ((c :: rest).take addressMatchLen) = true
      · rw [if_pos hshape]
        simp only [List.map_cons]
        rw [List.chain'_cons']
        refine ⟨?_, ih _ _⟩
        intro b hb
        have hbmem := List.mem_of_mem_head? hb
        obtain ⟨pm, hpm, hfst⟩ := List.mem_map.mp hbmem
        obtain ⟨hle, _, _⟩ := findAddressesGo_mem fuel _ _ pm hpm
        unfold addressMatchLen at hle
        omega
      · rw [if_neg hshape]
        exact ih _ _

/-- C6: the extractor classifies exactly the scan's matches in scan order;
the match start offsets are strictly increasing (left-to-right order of
appearance), every reported match is the address-shaped substring of the
text at its offset, and a match the address codec rejects is retained as
an `Almost` token carrying the matched substring — never discarded — just
as an accepted match becomes an `Address` token. -/
theorem extractTokens_ordered_and_retentive
    (addrParse : String → Option Address) (content : String) :
    extractTokens addrParse content
      = (findAddresses content.data 0).map (fun m =>
          match addrParse m.2 with
          | some addr => AddressOrAlmost.Address addr
          | none => AddressOrAlmost.Almost m.2)
    ∧ List.Chain' (· < ·) ((findAddresses content.data 0).map Prod.fst)
    ∧ ∀ pm ∈ findAddresses content.data 0,
        (content.data.drop pm.1).take addressMatchLen = pm.2.data
        ∧ isAddressShaped pm.2.data = true
        ∧ (addrParse pm.2 = none →
            AddressOrAlmost.Almost pm.2 ∈ extractTokens addrParse content)
        ∧ ∀ a, addrParse pm.2 = some a →
            AddressOrAlmost.Address a ∈ extractTokens addrParse content := by
  refine ⟨rfl, findAddressesGo_sorted _ _ _, ?_⟩
  intro pm hpm
  obtain ⟨_, hsub, hsh⟩ := findAddressesGo_mem content.data.length content.data 0 pm hpm
  rw [Nat.sub_zero] at hsub
  refine ⟨hsub, hsh, ?_, ?_⟩
  · intro hnone
    refine List.mem_map.mpr ⟨pm, hpm, ?_⟩
    rw [hnone]
  · intro a hsome
    refine List.mem_map.mpr ⟨pm, hpm, ?_⟩
    rw [hsome]

/-- Witness for C6: in the text `"hi " ++ addrSample` the single match is
reported at offset 3 with the matched substring, and with a rejecting
codec it surfaces as an `Almost` token. -/
theorem extractTokens_ordered_and_retentive_witness :
    AddressOrAlmost.Almost addrSample
      ∈ extractTokens (fun _ => none) ("hi " ++ addrSample)
    ∧ (("hi " ++ addrSample).data.drop 3).take addressMatchLen
      = addrSample.data := by
  have hmem : ((3 : Nat), addrSample)
      ∈ findAddresses ("hi " ++ addrSample).data 0 := by
    rw [show findAddresses ("hi " ++ addrSample).data 0 = [(3, addrSample)]
      from rfl]
    exact List.mem_singleton.mpr rfl
  obtain ⟨hsub, _, hret, _⟩ :=
    (extractTokens_ordered_and_retentive (fun _ => none)
      ("hi " ++ addrSample)).2.2 (3, addrSample) hmem
  exact ⟨hret rfl, hsub⟩

/-! ## C7: the summary has one section per non-empty bucket, in order -/

theorem foldl_push2 (g1 g2 : String) :
    ∀ (l : List String) (a b : String),
      l.foldl (fun resp x => resp ++ g1 ++ x ++ g2) (a ++ b)
        = a ++ l.foldl (fun resp x => resp ++ g1 ++ x ++ g2) b := by
  intro l
  induction l with
  | nil => intro a b; rfl
  | cons x xs ih =>
    intro a b
    simp only [List.foldl_cons]
    rw [show (a ++ b) ++ g1 ++ x ++ g2 = a ++ (b ++ g1 ++ x ++ g2) by
      simp [String.append_assoc]]
    exact ih a _

theorem foldl_push3 (g1 g2 g3 : String) :
    ∀ (l : List (String × String)) (a b : String),
      l.foldl (fun resp p => resp ++ g1 ++ p.1 ++ g2 ++ p.2 ++ g3) (a ++ b)
        = a ++ l.foldl (fun resp p => resp ++ g1 ++ p.1 ++ g2 ++ p.2 ++ g3) b := by
  intro l
  induction l with
  | nil => intro a b; rfl
  | cons x xs ih =>
    intro a b
    simp only [List.foldl_cons]
    rw [show (a ++ b) ++ g1 ++ x.1 ++ g2 ++ x.2 ++ g3
        = a ++ (b ++ g1 ++ x.1 ++ g2 ++ x.2 ++ g3) by
      simp [String.append_assoc]]
    exact ih a _

theorem sec2_decomp (g1 g2 hdr : String) (l : List String) :
    l.foldl (fun resp x => resp ++ g1 ++ x ++ g2) hdr
      = hdr ++ l.foldl (fun resp x => resp ++ g1 ++ x ++ g2) "" := by
  conv_lhs => rw [← String.append_empty hdr]
  exact foldl_push2 g1 g2 l hdr ""

theorem sec3_decomp (g1 g2 g3 hdr : String) (l : List (String × String)) :
    l.foldl (fun resp p => resp ++ g1 ++ p.1 ++ g2 ++ p.2 ++ g3) hdr
      = hdr ++ l.foldl (fun resp p => resp ++ g1 ++ p.1 ++ g2 ++ p.2 ++ g3) "" := by
  conv_lhs => rw [← String.append_empty hdr]
  exact foldl_push3 g1 g2 g3 l hdr ""

theorem succ_step (resp : String) (succ : List Address) :
    (if !succ.isEmpty then
      succ.foldl (fun resp addr => resp ++ "\n`" ++ addr ++ "`")
        (resp ++ "Successfully sent tokens to the following addresses:")
    else resp)
    = resp ++ succeededSection succ := by
  cases hs : succ.isEmpty with
  | true => simp [succeededSection, hs]
  | false =>
    simp only [succeededSection, hs, Bool.not_false, if_true, Bool.false_eq_true,
      if_false]
    exact foldl_push2 "\n`" "`" succ resp _

theorem failed_step (resp mention : String) (failed : List (Address × String)) :
    (if !failed.isEmpty then
      (failed.foldl
        (fun resp p => resp ++ "\n`" ++ p.1 ++ "` (error: " ++ p.2 ++ ")")
        (resp ++ "Failed to send tokens to the following addresses:\n"))
      ++ "\n" ++ mention ++ ": you may want to investigate this error :)"
    else resp)
    = resp ++ failedSection failed mention := by
  cases hf : failed.isEmpty with
  | true => simp [failedSection, hf]
  | false =>
    simp only [failedSection, hf, Bool.not_false, if_true, Bool.false_eq_true,
      if_false]
    rw [foldl_push3 "\n`" "` (error: " ")" failed resp _]
    simp [String.append_assoc]

theorem unparsed_step (resp : String) (unp : List String) :
    (if !unp.isEmpty then
      unp.foldl (fun resp addr => resp ++ "\n`" ++ addr ++ "`")
        (resp ++ ("\nThe following _look like_ Penumbra addresses, but are invalid "
          ++ "(maybe a typo or old address version?):"))
    else resp)
    = resp ++ unparsedSection unp := by
  cases hu : unp.isEmpty with
  | true => simp [unparsedSection, hu]
  | false =>
    simp only [unparsedSection, hu, Bool.not_false, if_true, Bool.false_eq_true,
      if_false]
    exact foldl_push2 "\n`" "`" unp resp _

theorem remaining_step (resp : String) (k : Nat) (rem : List Address) :
    (if !rem.isEmpty then
      rem.foldl (fun resp addr => resp ++ "\n`" ++ addr ++ "`")
        (resp ++ ("\nI\x27m only allowed to send tokens to addresses "
          ++ toString k
          ++ " at a time; try again later to get tokens for the following addresses:"))
    else resp)
    = resp ++ remainingSection k rem := by
  cases hr : rem.isEmpty with
  | true => simp [remainingSection, hr]
  | false =>
    simp only [remainingSection, hr, Bool.not_false, if_true, Bool.false_eq_true,
      if_false]
    exact foldl_push2 "\n`" "`" rem resp _

theorem hdr_append_ne_empty (hdr X : String) (h : hdr.length ≠ 0) :
    hdr ++ X ≠ "" := by
  intro heq
  have hlen := congrArg String.length heq
  rw [String.length_append] at hlen
  have hz : ("" : String).length = 0 := rfl
  rw [hz] at hlen
  omega

/-- C7: the summary is exactly the concatenation of the four sections in
the fixed order succeeded, failed, unparsed, deferred; a section is the
empty string exactly when its bucket is empty; a non-empty deferred
section states the configured cap, and a non-empty failed section for a
guild-less message carries the literal `Admin(s)` fallback. -/
theorem reply_summary_sections (r : Responder) (succ : List Address)
    (failed : List (Address × String)) (unp : List String) (rem : List Address)
    (message : Message) :
    reply_dispense_summary r succ failed unp rem message
      = succeededSection succ
        ++ failedSection failed (mentionAdmins r message)
        ++ unparsedSection unp
        ++ remainingSection r.max_addresses rem
    ∧ (succeededSection succ = "" ↔ succ = [])
    ∧ (failedSection failed (mentionAdmins r message) = "" ↔ failed = [])
    ∧ (unparsedSection unp = "" ↔ unp = [])
    ∧ (remainingSection r.max_addresses rem = "" ↔ rem = [])
    ∧ (rem ≠ [] →
        strOccurs (toString r.max_addresses)
          (remainingSection r.max_addresses rem))
    ∧ (failed ≠ [] → message.guild_id = none →
        strOccurs "Admin(s)" (failedSection failed (mentionAdmins r message))) := by
  refine ⟨?_, ?_, ?_, ?_, ?_, ?_, ?_⟩
  · simp only [reply_dispense_summary]
    rw [succ_step, failed_step, unparsed_step, remaining_step]
    simp [String.empty_append, String.append_assoc]
  · constructor
    · intro h
      cases hs : succ.isEmpty with
      | true => exact List.isEmpty_iff.mp hs
      | false =>
        exfalso
        simp only [succeededSection, hs, Bool.false_eq_true, if_false] at h
        rw [sec2_decomp] at h
        exact hdr_append_ne_empty _ _ (by decide) h
    · intro h
      subst h
      simp [succeededSection]
  · constructor
    · intro h
      cases hf : failed.isEmpty with
      | true => exact List.isEmpty_iff.mp hf
      | false =>
        exfalso
        simp only [failedSection, hf, Bool.false_eq_true, if_false] at h
        rw [sec3_decomp] at h
        simp only [String.append_assoc] at h
        exact hdr_append_ne_empty _ _ (by decide) h
    · intro h
      subst h
      simp [failedSection]
  · constructor
    · intro h
      cases hu : unp.isEmpty with
      | true => exact List.isEmpty_iff.mp hu
      | false =>
        exfalso
        simp only [unparsedSection, hu, Bool.false_eq_true, if_false] at h
        rw [sec2_decomp] at h
        simp only [String.append_assoc] at h
        exact hdr_append_ne_empty _ _ (by decide) h
    · intro h
      subst h
      simp [unparsedSection]
  · constructor
    · intro h
      cases hr : rem.isEmpty with
      | true => exact List.isEmpty_iff.mp hr
      | false =>
        exfalso
        simp only [remainingSection, hr, Bool.false_eq_true, if_false] at h
        rw [sec2_decomp] at h
        simp only [String.append_assoc] at h
        exact hdr_append_ne_empty _ _ (by decide) h
    · intro h
      subst h
      simp [remainingSection]
  · intro hrem
    have hr : rem.isEmpty = false := by
      cases hre : rem.isEmpty with
      | true => exact absurd (List.isEmpty_iff.mp hre) hrem
      | false => rfl
    simp only [remainingSection, hr, Bool.false_eq_true, if_false]
    rw [sec2_decomp]
    refine ⟨"\nI\x27m only allowed to send tokens to addresses ",
      " at a time; try again later to get tokens for the following addresses:"
        ++ rem.foldl (fun resp addr => resp ++ "\n`" ++ addr ++ "`") "", ?_⟩
    simp [String.append_assoc]
  · intro hfail hguild
    have hf : failed.isEmpty = false := by
      cases hfe : failed.isEmpty with
      | true => exact absurd (List.isEmpty_iff.mp hfe) hfail
      | false => rfl
    have hmention : mentionAdmins r message = "Admin(s)" := by
      simp [mentionAdmins, hguild]
    simp only [failedSection, hf, Bool.false_eq_true, if_false, hmention]
    exact ⟨_, _, rfl⟩

theorem reply_summary_sections_witness :
    strOccurs (toString (1 : Nat)) (remainingSection 1 ["X"])
    ∧ strOccurs "Admin(s)"
      (failedSection [("A", "err")] (mentionAdmins respCap1 msgPlain)) := by
  refine ⟨?_, ?_⟩
  · exact (reply_summary_sections respCap1 [] [] [] ["X"] msgPlain).2.2.2.2.2.1
      (by simp)
  · exact (reply_summary_sections respCap1 [] [("A", "err")] [] [] msgPlain).2.2.2.2.2.2
      (by simp) rfl
